import Mathlib

/-
Shallow embedding of the London Breakout backtesting core
(src/config.py, src/strategy.py, src/risk_management.py, src/backtest.py).

Numbers are modelled as exact rationals (the spec asks for exact arithmetic,
floating-point tolerance aside).  Timestamps are modelled as a calendar day
(an integer) together with a time of day in minutes since midnight (a
rational); `datetime.date()` is the `day` field and `datetime.time()` the
`tod` field.  Python dictionaries keyed by date are association lists, and
a raised exception is an `Except.error`.
-/

namespace LB

/-- Side of a position.  The source stores the strings "LONG" and "SHORT"
and every comparison is `side == "LONG"` with an else branch for SHORT,
so a two-constructor inductive is a faithful model. -/
inductive Side where
  | LONG
  | SHORT
deriving DecidableEq, Repr

/-- Exit reasons, the string literals used by the source:
"SL", "TP", "TIME", "END" and "MANUAL". -/
inductive ExitReason where
  | SL
  | TP
  | TIME
  | END
  | MANUAL
deriving DecidableEq, Repr

/-- SignalType enum from strategy.py. -/
inductive SignalType where
  | NONE
  | LONG
  | SHORT
deriving DecidableEq, Repr

/-- A timestamp: calendar day plus time of day in minutes since midnight. -/
structure Timestamp where
  day : ℤ
  tod : ℚ
deriving DecidableEq, Repr

/-- Total minutes of a timestamp, used for ordering comparisons on the
datetime index. -/
def Timestamp.toMin (t : Timestamp) : ℚ := (t.day : ℚ) * 1440 + t.tod

/-- An OHLC bar of the input series (one row of the dataframe). -/
structure Bar where
  timestamp : Timestamp
  open_ : ℚ
  high : ℚ
  low : ℚ
  close : ℚ
deriving DecidableEq, Repr

/-- Configuration values read from config.py by the core.  Times of day are
minutes since midnight, durations in the unit the source uses
(hours for the trading window, minutes for the early exit). -/
structure Config where
  ASIAN_SESSION_START : ℚ
  ASIAN_SESSION_END : ℚ
  LONDON_OPEN : ℚ
  LONDON_CLOSE : ℚ
  TRADING_WINDOW_HOURS : ℚ
  BREAKOUT_BUFFER_PIPS : ℚ
  MIN_RANGE_PIPS : ℚ
  MAX_RANGE_PIPS : ℚ
  RISK_PER_TRADE_PERCENT : ℚ
  POSITION_SIZE_PER_100 : ℚ
  RISK_REWARD_R : ℚ
  MIN_RISK_REWARD : ℚ
  MAX_DAILY_LOSS_PERCENT : ℚ
  MAX_OPEN_POSITIONS : ℕ
  MAX_POSITION_SIZE_LOTS : ℚ
  USE_TREND_FILTER : Bool
  TREND_EMA_PERIOD : ℕ
  TRADE_WITH_TREND_ONLY : Bool
  INITIAL_CAPITAL : ℚ
  COMMISSION_PER_LOT : ℚ
  USE_TIME_EXIT : Bool
  EXIT_BEFORE_CLOSE_MINUTES : ℚ
  USE_TRAILING_STOP : Bool
  TRAILING_STOP_ACTIVATION_RR : ℚ
  TRAILING_STOP_DISTANCE_PIPS : ℚ
deriving Repr

/-- The concrete values from config.py (times converted to minutes). -/
def defaultConfig : Config where
  ASIAN_SESSION_START := 0
  ASIAN_SESSION_END := 420
  LONDON_OPEN := 480
  LONDON_CLOSE := 960
  TRADING_WINDOW_HOURS := 2
  BREAKOUT_BUFFER_PIPS := 2
  MIN_RANGE_PIPS := 15
  MAX_RANGE_PIPS := 100
  RISK_PER_TRADE_PERCENT := 1
  POSITION_SIZE_PER_100 := 1/100
  RISK_REWARD_R := 2
  MIN_RISK_REWARD := 3/2
  MAX_DAILY_LOSS_PERCENT := 3
  MAX_OPEN_POSITIONS := 3
  MAX_POSITION_SIZE_LOTS := 1
  USE_TREND_FILTER := true
  TREND_EMA_PERIOD := 200
  TRADE_WITH_TREND_ONLY := true
  INITIAL_CAPITAL := 10000
  COMMISSION_PER_LOT := 7
  USE_TIME_EXIT := true
  EXIT_BEFORE_CLOSE_MINUTES := 30
  USE_TRAILING_STOP := true
  TRAILING_STOP_ACTIVATION_RR := 1
  TRAILING_STOP_DISTANCE_PIPS := 10

/-- An open position (risk_management.Position).  The `position_id` models
the formatted string built from the symbol and the entry time. -/
structure Position where
  symbol : String
  side : Side
  entry_price : ℚ
  stop_loss : ℚ
  take_profit : ℚ
  size_lots : ℚ
  entry_time : Timestamp
  position_id : Option (String × Timestamp) := none
deriving DecidableEq, Repr

/-- Position.risk_pips: `abs(entry_price - stop_loss) * 10000`. -/
def Position.risk_pips (p : Position) : ℚ :=
  |p.entry_price - p.stop_loss| * 10000

/-- Position.current_risk_amount: risk_pips times a pip value of
10 dollars per lot times the size. -/
def Position.current_risk_amount (p : Position) : ℚ :=
  p.risk_pips * (10 * p.size_lots)

/-- Position.calculate_pnl: unrealized P&L in pips at a price. -/
def Position.calculate_pnl (p : Position) (current_price : ℚ) : ℚ :=
  match p.side with
  | Side.LONG => (current_price - p.entry_price) * 10000
  | Side.SHORT => (p.entry_price - current_price) * 10000

/-- Position.is_stop_hit. -/
def Position.is_stop_hit (p : Position) (current_price : ℚ) : Bool :=
  match p.side with
  | Side.LONG => decide (current_price ≤ p.stop_loss)
  | Side.SHORT => decide (p.stop_loss ≤ current_price)

/-- Position.is_target_hit. -/
def Position.is_target_hit (p : Position) (current_price : ℚ) : Bool :=
  match p.side with
  | Side.LONG => decide (p.take_profit ≤ current_price)
  | Side.SHORT => decide (current_price ≤ p.take_profit)

/-- A completed trade record (risk_management.Trade). -/
structure Trade where
  symbol : String
  side : Side
  entry_price : ℚ
  exit_price : ℚ
  stop_loss : ℚ
  take_profit : ℚ
  size_lots : ℚ
  entry_time : Timestamp
  exit_time : Timestamp
  pnl_pips : ℚ
  pnl_amount : ℚ
  exit_reason : ExitReason
  commission : ℚ
deriving DecidableEq, Repr

/-- Trade.net_pnl: P&L after commission. -/
def Trade.net_pnl (t : Trade) : ℚ := t.pnl_amount - t.commission

/-- Trade.was_winner. -/
def Trade.was_winner (t : Trade) : Bool := decide (0 < t.net_pnl)

/-- Sum of net P&L over a trade list. -/
def net_sum (l : List Trade) : ℚ := (l.map Trade.net_pnl).sum

/-- Python round(x, 2): round half to even on the second decimal. -/
def pyRound2 (x : ℚ) : ℚ :=
  let y := x * 100
  let f : ℤ := ⌊y⌋
  let r := y - (f : ℚ)
  if r < 1/2 then (f : ℚ) / 100
  else if 1/2 < r then ((f : ℚ) + 1) / 100
  else if f % 2 = 0 then (f : ℚ) / 100 else ((f : ℚ) + 1) / 100

/-- RiskManager mutable state. -/
structure RMState where
  initial_capital : ℚ
  current_equity : ℚ
  open_positions : List Position
  closed_trades : List Trade
  daily_pnl : List (ℤ × ℚ)
deriving DecidableEq, Repr

/-- RiskManager.__init__. -/
def RMState.init (initial_capital : ℚ) : RMState :=
  ⟨initial_capital, initial_capital, [], [], []⟩

/-- RiskManager.total_pnl. -/
def RMState.total_pnl (rm : RMState) : ℚ := net_sum rm.closed_trades

/-- RiskManager.open_risk. -/
def RMState.open_risk (rm : RMState) : ℚ :=
  (rm.open_positions.map Position.current_risk_amount).sum

/-- RiskManager.calculate_position_size. -/
def calculate_position_size (cfg : Config) (rm : RMState)
    (entry_price stop_loss : ℚ) (risk_percent : Option ℚ) : ℚ :=
  let rp := risk_percent.getD cfg.RISK_PER_TRADE_PERCENT
  let risk_amount := rm.current_equity * (rp / 100)
  let risk_pips := |entry_price - stop_loss| * 10000
  if risk_pips = 0 then 0
  else
    let pip_value_per_lot : ℚ := 10
    let sz := risk_amount / (risk_pips * pip_value_per_lot)
    let sz := min sz cfg.MAX_POSITION_SIZE_LOTS
    let simple_size := rm.current_equity / 100 * cfg.POSITION_SIZE_PER_100
    let sz := min sz simple_size
    pyRound2 sz

/-- RiskManager.can_open_position. -/
def can_open_position (cfg : Config) (rm : RMState)
    (risk_amount : ℚ) (current_date : ℤ) : Bool × String :=
  if cfg.MAX_OPEN_POSITIONS ≤ rm.open_positions.length then
    (false, "Maximum open positions reached")
  else
    let dailyReject :=
      match rm.daily_pnl.lookup current_date with
      | some pnl => decide ((pnl / rm.current_equity) * 100 ≤ -cfg.MAX_DAILY_LOSS_PERCENT)
      | none => false
    if dailyReject then (false, "Daily loss limit reached")
    else
      let total_risk_after := rm.open_risk + risk_amount
      let max_allowed_risk :=
        rm.current_equity * (cfg.RISK_PER_TRADE_PERCENT * (cfg.MAX_OPEN_POSITIONS : ℚ) / 100)
      if max_allowed_risk < total_risk_after then (false, "Total risk exposure too high")
      else (true, "OK")

/-- RiskManager.open_position.  Returns the updated state and the new
position, or the unchanged state and `none` when rejected. -/
def open_position (cfg : Config) (rm : RMState) (symbol : String) (side : Side)
    (entry_price stop_loss take_profit : ℚ) (entry_time : Timestamp)
    (size_lots : Option ℚ) : RMState × Option Position :=
  let sz :=
    match size_lots with
    | none => calculate_position_size cfg rm entry_price stop_loss none
    | some s => s
  if sz = 0 then (rm, none)
  else
    let position : Position :=
      { symbol := symbol
        side := side
        entry_price := entry_price
        stop_loss := stop_loss
        take_profit := take_profit
        size_lots := sz
        entry_time := entry_time
        position_id := some (symbol, entry_time) }
    let check := can_open_position cfg rm position.current_risk_amount entry_time.day
    if check.1 then
      ({ rm with open_positions := rm.open_positions ++ [position] }, some position)
    else (rm, none)

/-- Update a date-keyed association list in place, Python-dict style. -/
def updateAssoc : List (ℤ × ℚ) → ℤ → ℚ → List (ℤ × ℚ)
  | [], k, v => [(k, v)]
  | (k', v') :: rest, k, v =>
    if k' = k then (k', v) :: rest else (k', v') :: updateAssoc rest k v

/-- RiskManager.close_position: builds the Trade, adds its net P&L to the
equity and to the day's realized-P&L bucket, removes the position from the
open set (first structurally equal element, as Python list.remove does) and
appends the trade to the closed log. -/
def close_position (cfg : Config) (rm : RMState) (position : Position)
    (exit_price : ℚ) (exit_time : Timestamp) (exit_reason : ExitReason) :
    RMState × Trade :=
  let pnl_pips :=
    match position.side with
    | Side.LONG => (exit_price - position.entry_price) * 10000
    | Side.SHORT => (position.entry_price - exit_price) * 10000
  let pip_value := 10 * position.size_lots
  let pnl_amount := pnl_pips * pip_value
  let commission := cfg.COMMISSION_PER_LOT * position.size_lots
  let trade : Trade :=
    { symbol := position.symbol
      side := position.side
      entry_price := position.entry_price
      exit_price := exit_price
      stop_loss := position.stop_loss
      take_profit := position.take_profit
      size_lots := position.size_lots
      entry_time := position.entry_time
      exit_time := exit_time
      pnl_pips := pnl_pips
      pnl_amount := pnl_amount
      exit_reason := exit_reason
      commission := commission }
  let prev := (rm.daily_pnl.lookup exit_time.day).getD 0
  ({ rm with
      current_equity := rm.current_equity + trade.net_pnl
      daily_pnl := updateAssoc rm.daily_pnl exit_time.day (prev + trade.net_pnl)
      open_positions := rm.open_positions.erase position
      closed_trades := rm.closed_trades ++ [trade] }, trade)

/-- RiskManager.update_trailing_stop.  Returns the (possibly) updated
position together with the bool the source returns; the Python code mutates
the position in place. -/
def update_trailing_stop (cfg : Config) (position : Position)
    (current_price : ℚ) : Position × Bool :=
  if !cfg.USE_TRAILING_STOP then (position, false)
  else
    let pnl_pips := position.calculate_pnl current_price
    let activation_pips := position.risk_pips * cfg.TRAILING_STOP_ACTIVATION_RR
    if pnl_pips < activation_pips then (position, false)
    else
      let trail_distance := cfg.TRAILING_STOP_DISTANCE_PIPS / 10000
      match position.side with
      | Side.LONG =>
        let new_stop := current_price - trail_distance
        if position.stop_loss < new_stop then
          ({ position with stop_loss := new_stop }, true)
        else (position, false)
      | Side.SHORT =>
        let new_stop := current_price + trail_distance
        if new_stop < position.stop_loss then
          ({ position with stop_loss := new_stop }, true)
        else (position, false)

/-- Asian session price range (strategy.AsianRange). -/
structure AsianRange where
  high : ℚ
  low : ℚ
  timestamp : Timestamp
deriving DecidableEq, Repr

/-- AsianRange.range_pips. -/
def AsianRange.range_pips (r : AsianRange) : ℚ := (r.high - r.low) * 10000

/-- AsianRange.midpoint. -/
def AsianRange.midpoint (r : AsianRange) : ℚ := (r.high + r.low) / 2

/-- AsianRange.is_valid: range size within the configured pip band. -/
def AsianRange.is_valid (cfg : Config) (r : AsianRange) : Bool :=
  decide (cfg.MIN_RANGE_PIPS ≤ r.range_pips) && decide (r.range_pips ≤ cfg.MAX_RANGE_PIPS)

/-- A trade signal (strategy.TradeSignal). -/
structure TradeSignal where
  signal_type : SignalType
  timestamp : Timestamp
  entry_price : ℚ
  stop_loss : ℚ
  take_profit : ℚ
  asian_range : AsianRange
deriving DecidableEq, Repr

/-- TradeSignal.risk_pips. -/
def TradeSignal.sig_risk_pips (s : TradeSignal) : ℚ :=
  |s.entry_price - s.stop_loss| * 10000

/-- TradeSignal.reward_pips. -/
def TradeSignal.sig_reward_pips (s : TradeSignal) : ℚ :=
  |s.take_profit - s.entry_price| * 10000

/-- TradeSignal.risk_reward_ratio: reward over risk, 0 when risk is 0. -/
def TradeSignal.sig_rr (s : TradeSignal) : ℚ :=
  if s.sig_risk_pips = 0 then 0 else s.sig_reward_pips / s.sig_risk_pips

/-- LondonBreakoutStrategy mutable state: the cached range and the date of
the last emitted signal. -/
structure StratState where
  current_range : Option AsianRange
  last_signal_date : Option ℤ
deriving DecidableEq, Repr

/-- LondonBreakoutStrategy.__init__ state. -/
def StratState.init : StratState := ⟨none, none⟩

/-- LondonBreakoutStrategy.identify_asian_range: scan the bars of the Asian
session window of the target date; `none` when the window holds no bar or
the resulting range fails the size band. -/
def identify_asian_range (cfg : Config) (df : List Bar)
    (target_date : Timestamp) : Option AsianRange :=
  let asian_start : Timestamp := ⟨target_date.day, cfg.ASIAN_SESSION_START⟩
  let asian_end : Timestamp := ⟨target_date.day, cfg.ASIAN_SESSION_END⟩
  let asian_data := df.filter fun b =>
    decide (asian_start.toMin ≤ b.timestamp.toMin) &&
    decide (b.timestamp.toMin < asian_end.toMin)
  match asian_data with
  | [] => none
  | b :: bs =>
    let high := (bs.map Bar.high).foldl max b.high
    let low := (bs.map Bar.low).foldl min b.low
    let r : AsianRange := ⟨high, low, asian_end⟩
    if r.is_valid cfg then some r else none

/-- Last value of pandas ewm(span, adjust=False).mean() over a close list. -/
def ewmLast (span : ℕ) : List ℚ → ℚ
  | [] => 0
  | c :: cs =>
    let α : ℚ := 2 / ((span : ℚ) + 1)
    cs.foldl (fun e x => α * x + (1 - α) * e) c

/-- LondonBreakoutStrategy.calculate_trend_direction. -/
def calculate_trend_direction (cfg : Config) (df : List Bar)
    (timestamp : Timestamp) : ℤ :=
  if !cfg.USE_TREND_FILTER then 0
  else
    let historical := df.filter fun b => decide (b.timestamp.toMin ≤ timestamp.toMin)
    if historical.length < cfg.TREND_EMA_PERIOD then 0
    else
      let closes := historical.map Bar.close
      let current_ema := ewmLast cfg.TREND_EMA_PERIOD closes
      let current_price := (closes.getLast?).getD 0
      if current_ema < current_price then 1
      else if current_price < current_ema then -1
      else 0

/-- LondonBreakoutStrategy.check_breakout. -/
def check_breakout (cfg : Config) (current_bar : Bar)
    (asian_range : AsianRange) : SignalType :=
  let breakout_buffer := cfg.BREAKOUT_BUFFER_PIPS / 10000
  if asian_range.high + breakout_buffer < current_bar.close then SignalType.LONG
  else if current_bar.close < asian_range.low - breakout_buffer then SignalType.SHORT
  else SignalType.NONE

/-- LondonBreakoutStrategy.calculate_position_levels. -/
def calculate_position_levels (cfg : Config) (signal_type : SignalType)
    (entry_price : ℚ) (asian_range : AsianRange) : ℚ × ℚ :=
  match signal_type with
  | SignalType.LONG =>
    let stop_loss := asian_range.low
    let risk := entry_price - stop_loss
    (stop_loss, entry_price + risk * cfg.RISK_REWARD_R)
  | SignalType.SHORT =>
    let stop_loss := asian_range.high
    let risk := stop_loss - entry_price
    (stop_loss, entry_price - risk * cfg.RISK_REWARD_R)
  | SignalType.NONE => (0, 0)

/-- LondonBreakoutStrategy.generate_signal.  Returns the updated strategy
state (the range cache can be refreshed even when no signal is emitted)
together with the optional signal. -/
def generate_signal (cfg : Config) (st : StratState) (df : List Bar)
    (current_time : Timestamp) : StratState × Option TradeSignal :=
  if st.last_signal_date = some current_time.day then (st, none)
  else
    let current_hour := current_time.tod
    let w := cfg.LONDON_OPEN + 60 * cfg.TRADING_WINDOW_HOURS
    let london_window_end := w - 1440 * (⌊w / 1440⌋ : ℤ)
    if !(decide (cfg.LONDON_OPEN ≤ current_hour) &&
         decide (current_hour ≤ london_window_end)) then (st, none)
    else
      let st1 :=
        match st.current_range with
        | none => { st with current_range := identify_asian_range cfg df current_time }
        | some r =>
          if r.timestamp.day ≠ current_time.day then
            { st with current_range := identify_asian_range cfg df current_time }
          else st
      match st1.current_range with
      | none => (st1, none)
      | some rng =>
        match df.find? (fun b => b.timestamp = current_time) with
        | none => (st1, none)
        | some current_bar =>
          let signal_type := check_breakout cfg current_bar rng
          if signal_type = SignalType.NONE then (st1, none)
          else
            let skipByTrend :=
              if cfg.TRADE_WITH_TREND_ONLY then
                let trend := calculate_trend_direction cfg df current_time
                (signal_type = SignalType.LONG && trend = -1) ||
                (signal_type = SignalType.SHORT && trend = 1)
              else false
            if skipByTrend then (st1, none)
            else
              let entry_price := current_bar.close
              let levels := calculate_position_levels cfg signal_type entry_price rng
              let trade_signal : TradeSignal :=
                { signal_type := signal_type
                  timestamp := current_time
                  entry_price := entry_price
                  stop_loss := levels.1
                  take_profit := levels.2
                  asian_range := rng }
              if trade_signal.sig_rr < cfg.MIN_RISK_REWARD then (st1, none)
              else ({ st1 with last_signal_date := some current_time.day }, some trade_signal)

/-- LondonBreakoutStrategy.should_exit_time_based. -/
def should_exit_time_based (cfg : Config) (current_time : Timestamp) : Bool :=
  if !cfg.USE_TIME_EXIT then false
  else
    let exit_min : ℚ :=
      (current_time.day : ℚ) * 1440 + cfg.LONDON_CLOSE - cfg.EXIT_BEFORE_CLOSE_MINUTES
    decide (exit_min ≤ current_time.toMin)

/-- Run a sequence of generate_signal calls, threading the strategy state
and collecting the results. -/
def run_signal_calls (cfg : Config) :
    StratState → List (List Bar × Timestamp) → StratState × List (Option TradeSignal)
  | st, [] => (st, [])
  | st, (df, t) :: rest =>
    let r := generate_signal cfg st df t
    let rec' := run_signal_calls cfg r.1 rest
    (rec'.1, r.2 :: rec'.2)

/-- Apply a sequence of trailing-stop updates to a position, the way the
simulation mutates it over successive bars. -/
def apply_trailing_updates (cfg : Config) : Position → List ℚ → Position
  | pos, [] => pos
  | pos, price :: rest =>
    apply_trailing_updates cfg (update_trailing_stop cfg pos price).1 rest

/-- A value of the Python results dictionary.  `num` is an exact rational;
`inf` is float('inf'); `ann m v` is the exact representation of the
annualized quotient sqrt(252) * m / sqrt(v) produced by the Sharpe and
Sortino formulas; the remaining constructors carry the equity curve and the
trade list. -/
inductive RVal where
  | num (q : ℚ)
  | inf
  | ann (m v : ℚ)
  | curvePts (eq : List ℚ) (times : List Timestamp)
  | tradeList (l : List Trade)
deriving DecidableEq, Repr

/-- Dictionary access on a results association list. -/
def dict_get (d : List (String × RVal)) (k : String) : Option RVal :=
  List.lookup k d

/-- Mean of a rational list (np.mean / pandas mean). -/
def mean_q (l : List ℚ) : ℚ := l.sum / (l.length : ℚ)

/-- Sample variance with ddof = 1, pandas Series.std() squared; `none`
models the NaN pandas returns for fewer than two points. -/
def sample_var (l : List ℚ) : Option ℚ :=
  if l.length < 2 then none
  else some (((l.map fun x => (x - mean_q l) ^ 2).sum) / ((l.length : ℚ) - 1))

/-- pandas Series.pct_change().dropna(): consecutive percentage changes. -/
def pct_changes : List ℚ → List ℚ
  | [] => []
  | [_] => []
  | a :: b :: rest => (b / a - 1) :: pct_changes (b :: rest)

/-- pandas expanding().max() over a list. -/
def running_maxes_from (m : ℚ) : List ℚ → List ℚ
  | [] => []
  | x :: xs => max m x :: running_maxes_from (max m x) xs

/-- Running maxima of an equity curve. -/
def running_maxes : List ℚ → List ℚ
  | [] => []
  | x :: xs => x :: running_maxes_from x xs

/-- Minimum of a list, 0 for the empty list. -/
def list_min : List ℚ → ℚ
  | [] => 0
  | x :: xs => xs.foldl min x

/-- RiskManager.win_rate. -/
def RMState.win_rate (rm : RMState) : ℚ :=
  if rm.closed_trades = [] then 0
  else
    let winners := (rm.closed_trades.filter fun t => t.was_winner).length
    ((winners : ℚ) / (rm.closed_trades.length : ℚ)) * 100

/-- RiskManager.average_win. -/
def RMState.average_win (rm : RMState) : ℚ :=
  let winners := (rm.closed_trades.filter fun t => t.was_winner).map Trade.net_pnl
  if winners = [] then 0 else mean_q winners

/-- RiskManager.average_loss. -/
def RMState.average_loss (rm : RMState) : ℚ :=
  let losers := (rm.closed_trades.filter fun t => !t.was_winner).map Trade.net_pnl
  if losers = [] then 0 else mean_q losers

/-- RiskManager.profit_factor: gross profit over gross loss, float('inf')
when the gross loss is zero and the gross profit positive. -/
def RMState.profit_factor (rm : RMState) : RVal :=
  let gross_profit := ((rm.closed_trades.filter fun t => t.was_winner).map Trade.net_pnl).sum
  let gross_loss := |((rm.closed_trades.filter fun t => !t.was_winner).map Trade.net_pnl).sum|
  if gross_loss = 0 then
    if 0 < gross_profit then RVal.inf else RVal.num 0
  else RVal.num (gross_profit / gross_loss)

/-- Maximum of a list with a default, Python max(..., default=0). -/
def list_max_d (d : ℚ) : List ℚ → ℚ
  | [] => d
  | x :: xs => xs.foldl max x

/-- Minimum of a list with a default, Python min(..., default=0). -/
def list_min_d (d : ℚ) : List ℚ → ℚ
  | [] => d
  | x :: xs => xs.foldl min x

/-- RiskManager.get_statistics: the reduced four-key dictionary when the
closed-trade log is empty, the full dictionary otherwise. -/
def get_statistics (rm : RMState) : List (String × RVal) :=
  if rm.closed_trades = [] then
    [("total_trades", RVal.num 0),
     ("win_rate", RVal.num 0),
     ("total_pnl", RVal.num 0),
     ("profit_factor", RVal.num 0)]
  else
    let winners := rm.closed_trades.filter fun t => t.was_winner
    let losers := rm.closed_trades.filter fun t => !t.was_winner
    [("total_trades", RVal.num (rm.closed_trades.length : ℚ)),
     ("winners", RVal.num (winners.length : ℚ)),
     ("losers", RVal.num (losers.length : ℚ)),
     ("win_rate", RVal.num rm.win_rate),
     ("total_pnl", RVal.num rm.total_pnl),
     ("total_pnl_percent", RVal.num ((rm.total_pnl / rm.initial_capital) * 100)),
     ("profit_factor", rm.profit_factor),
     ("average_win", RVal.num rm.average_win),
     ("average_loss", RVal.num rm.average_loss),
     ("largest_win", RVal.num (list_max_d 0 (winners.map Trade.net_pnl))),
     ("largest_loss", RVal.num (list_min_d 0 (losers.map Trade.net_pnl))),
     ("average_trade", RVal.num (mean_q (rm.closed_trades.map Trade.net_pnl))),
     ("current_equity", RVal.num rm.current_equity),
     ("return_percent",
      RVal.num (((rm.current_equity - rm.initial_capital) / rm.initial_capital) * 100))]

/-- BacktestEngine mutable state: the tracked symbol, the strategy and the
risk manager, and the recorded equity curve with its timestamps. -/
structure EngineState where
  symbol : String
  strat : StratState
  rm : RMState
  equity_curve : List ℚ
  dates : List Timestamp
deriving DecidableEq, Repr

/-- BacktestEngine.__init__: capital defaults to config.INITIAL_CAPITAL. -/
def EngineState.init (cfg : Config) (symbol : String)
    (initial_capital : Option ℚ) : EngineState :=
  { symbol := symbol
    strat := StratState.init
    rm := RMState.init (initial_capital.getD cfg.INITIAL_CAPITAL)
    equity_curve := []
    dates := [] }

/-- Stop-loss / take-profit evaluation of _process_bar: the stop is checked
first against the bar extreme, the target only otherwise. -/
def check_exit_levels (position : Position) (bar : Bar) : Option (ℚ × ExitReason) :=
  match position.side with
  | Side.LONG =>
    if bar.low ≤ position.stop_loss then some (position.stop_loss, ExitReason.SL)
    else if position.take_profit ≤ bar.high then some (position.take_profit, ExitReason.TP)
    else none
  | Side.SHORT =>
    if position.stop_loss ≤ bar.high then some (position.stop_loss, ExitReason.SL)
    else if bar.low ≤ position.take_profit then some (position.take_profit, ExitReason.TP)
    else none

/-- Full per-bar exit decision of _process_bar: levels first, then the
time-based exit at the bar close. -/
def bar_exit_decision (cfg : Config) (current_time : Timestamp)
    (position : Position) (bar : Bar) : Option (ℚ × ExitReason) :=
  let e := check_exit_levels position bar
  if e.isNone && should_exit_time_based cfg current_time then
    some (bar.close, ExitReason.TIME)
  else e

/-- Processing of one open position inside _process_bar: close it when an
exit triggers, otherwise run the trailing-stop update (an in-place mutation
of the object held in the open list, modelled by a first-occurrence
replacement). -/
def process_position (cfg : Config) (rm : RMState) (current_time : Timestamp)
    (bar : Bar) (position : Position) : RMState :=
  match bar_exit_decision cfg current_time position bar with
  | some pr => (close_position cfg rm position pr.1 current_time pr.2).1
  | none =>
    let upd := update_trailing_stop cfg position bar.close
    { rm with open_positions := rm.open_positions.replace position upd.1 }

/-- Iteration over a snapshot of the open positions. -/
def process_positions (cfg : Config) (current_time : Timestamp) (bar : Bar) :
    RMState → List Position → RMState
  | rm, [] => rm
  | rm, p :: ps =>
    process_positions cfg current_time bar
      (process_position cfg rm current_time bar p) ps

/-- Exit phase of _process_bar: iterate over open_positions.copy(). -/
def process_exits (cfg : Config) (rm : RMState) (current_time : Timestamp)
    (bar : Bar) : RMState :=
  process_positions cfg current_time bar rm rm.open_positions

/-- Signal phase of _process_bar: solicit a signal only when no position is
open for the tracked symbol, then _execute_signal. -/
def process_signal_phase (cfg : Config) (df : List Bar) (st : EngineState)
    (current_time : Timestamp) : EngineState :=
  let open_symbols := st.rm.open_positions.map Position.symbol
  if st.symbol ∈ open_symbols then st
  else
    let r := generate_signal cfg st.strat df current_time
    match r.2 with
    | none => { st with strat := r.1 }
    | some signal =>
      let side := if signal.signal_type = SignalType.LONG then Side.LONG else Side.SHORT
      let opened := open_position cfg st.rm st.symbol side signal.entry_price
        signal.stop_loss signal.take_profit current_time none
      { st with strat := r.1, rm := opened.1 }

/-- BacktestEngine._process_bar: record the equity point first, then the
exit phase, then the signal phase. -/
def process_bar (cfg : Config) (df : List Bar) (st : EngineState) (bar : Bar) :
    EngineState :=
  let current_time := bar.timestamp
  let st1 := { st with
    equity_curve := st.equity_curve ++ [st.rm.current_equity]
    dates := st.dates ++ [current_time] }
  let st2 := { st1 with rm := process_exits cfg st1.rm current_time bar }
  process_signal_phase cfg df st2 current_time

/-- The bar-by-bar loop of BacktestEngine.run. -/
def process_bars (cfg : Config) (df : List Bar) :
    EngineState → List Bar → EngineState
  | st, [] => st
  | st, b :: bs => process_bars cfg df (process_bar cfg df st b) bs

/-- Pre-exit equities along a run: the value process_bar records for each
bar, namely the equity as it stands when the bar starts to be processed. -/
def equity_trace (cfg : Config) (df : List Bar) :
    EngineState → List Bar → List ℚ
  | _, [] => []
  | st, b :: bs => st.rm.current_equity :: equity_trace cfg df (process_bar cfg df st b) bs

/-- Date filtering at the top of BacktestEngine.run. -/
def filter_dates (bars : List Bar) (start_date end_date : Option Timestamp) :
    List Bar :=
  let b1 := match start_date with
    | none => bars
    | some s => bars.filter fun b => decide (s.toMin ≤ b.timestamp.toMin)
  match end_date with
  | none => b1
  | some e => b1.filter fun b => decide (b.timestamp.toMin ≤ e.toMin)

/-- BacktestEngine._calculate_consecutive_trades. -/
def calculate_consecutive_trades (trades : List Trade) : ℕ × ℕ :=
  let f := fun (acc : ℕ × ℕ × ℕ × ℕ) (t : Trade) =>
    let maxw := acc.1
    let maxl := acc.2.1
    let curw := acc.2.2.1
    let curl := acc.2.2.2
    if t.was_winner then (max maxw (curw + 1), maxl, curw + 1, 0)
    else (maxw, max maxl (curl + 1), 0, curl + 1)
  let r := trades.foldl f (0, 0, 0, 0)
  (r.1, r.2.1)

/-- BacktestEngine._generate_results: the statistics dictionary extended
with drawdown, Sharpe, Sortino, streak and calendar entries, the curve and
the trade log. -/
def generate_results (_cfg : Config) (st : EngineState) (df : List Bar) :
    List (String × RVal) :=
  let stats := get_statistics st.rm
  let curve := st.equity_curve
  let rmaxes := running_maxes curve
  let drawdowns := List.zipWith (fun e m => (e - m) / m * 100) curve rmaxes
  let max_drawdown := list_min drawdowns
  let curve_min := list_min curve
  let idx := curve.findIdx fun x => decide (x = curve_min)
  let max_drawdown_amount := curve_min - (rmaxes.getD idx 0)
  let returns := pct_changes curve
  let sharpe :=
    if 0 < returns.length then
      match sample_var returns with
      | some v => if 0 < v then RVal.ann (mean_q returns) v else RVal.num 0
      | none => RVal.num 0
    else RVal.num 0
  let negative_returns := returns.filter fun r => decide (r < 0)
  let sortino :=
    match sample_var negative_returns with
    | some v =>
      if 0 < negative_returns.length ∧ 0 < v then
        RVal.ann (mean_q returns) v
      else RVal.num 0
    | none => RVal.num 0
  let streaks := calculate_consecutive_trades st.rm.closed_trades
  let first_t := ((df.head?).map Bar.timestamp).getD ⟨0, 0⟩
  let last_t := ((df.getLast?).map Bar.timestamp).getD ⟨0, 0⟩
  let total_days : ℤ := ⌊(last_t.toMin - first_t.toMin) / 1440⌋
  stats ++
    [("max_drawdown", RVal.num max_drawdown),
     ("max_drawdown_amount", RVal.num max_drawdown_amount),
     ("sharpe_ratio", sharpe),
     ("sortino_ratio", sortino),
     ("max_consecutive_wins", RVal.num (streaks.1 : ℚ)),
     ("max_consecutive_losses", RVal.num (streaks.2 : ℚ)),
     ("total_days", RVal.num (total_days : ℚ)),
     ("equity_curve", RVal.curvePts st.equity_curve st.dates),
     ("trades", RVal.tradeList st.rm.closed_trades)]

/-- The dictionary keys BacktestEngine._print_results reads, in access
order. -/
def print_results_keys : List String :=
  ["total_trades", "winners", "losers", "win_rate", "profit_factor",
   "average_win", "average_loss", "largest_win", "largest_loss",
   "total_pnl", "total_pnl_percent", "current_equity", "return_percent",
   "max_drawdown", "sharpe_ratio", "sortino_ratio",
   "max_consecutive_wins", "max_consecutive_losses"]

/-- BacktestEngine._print_results, modelled as the sequence of dictionary
accesses it performs: the first missing key raises a KeyError. -/
def print_results (d : List (String × RVal)) : Except String Unit :=
  match print_results_keys.find? (fun k => (dict_get d k).isNone) with
  | some k => Except.error ("KeyError: " ++ k)
  | none => Except.ok ()

/-- BacktestEngine.run: filter the date range, reject an empty frame,
iterate the bars, force-close open positions at the last close, build the
results and print them (a raised exception is returned as an error). -/
def run (cfg : Config) (st : EngineState) (bars : List Bar)
    (start_date end_date : Option Timestamp) :
    EngineState × Except String (List (String × RVal)) :=
  let df := filter_dates bars start_date end_date
  match df with
  | [] => (st, Except.error "No data available for backtest period")
  | b0 :: rest =>
    let df := b0 :: rest
    let st1 := process_bars cfg df st df
    let last_bar := (df.getLast?).getD b0
    let rm2 := st1.rm.open_positions.foldl
      (fun acc p => (close_position cfg acc p last_bar.close last_bar.timestamp ExitReason.END).1)
      st1.rm
    let st2 := { st1 with rm := rm2 }
    let results := generate_results cfg st2 df
    match print_results results with
    | Except.error e => (st2, Except.error e)
    | Except.ok _ => (st2, Except.ok results)

/-- Invariant relating equity to the closed-trade log. -/
def equity_conserved (rm : RMState) : Prop :=
  rm.current_equity = rm.initial_capital + net_sum rm.closed_trades

/-- Invariant of the open-position set for the tracked symbol. -/
def pos_inv (sym : String) (rm : RMState) : Prop :=
  rm.open_positions.length ≤ 1 ∧ ∀ p ∈ rm.open_positions, p.symbol = sym

/-- Reachability invariant of a trailed position: the stop is still the
original one, or it has been moved by the trailing rule and then sits no
further from the activation price than the trailing distance. -/
def trail_inv (cfg : Config) (pos0 pos : Position) : Prop :=
  pos.side = pos0.side ∧ pos.entry_price = pos0.entry_price ∧
  (pos0.side = Side.LONG →
    pos.stop_loss = pos0.stop_loss ∨
      pos0.entry_price + pos0.risk_pips * cfg.TRAILING_STOP_ACTIVATION_RR / 10000
        - cfg.TRAILING_STOP_DISTANCE_PIPS / 10000 ≤ pos.stop_loss) ∧
  (pos0.side = Side.SHORT →
    pos.stop_loss = pos0.stop_loss ∨
      pos.stop_loss ≤ pos0.entry_price - pos0.risk_pips * cfg.TRAILING_STOP_ACTIVATION_RR / 10000
        + cfg.TRAILING_STOP_DISTANCE_PIPS / 10000)

/-- Claim C2: whenever a bar's range contains both the stop-loss and the
take-profit of an open position, the per-bar exit evaluation closes the
position at the stop-loss price with the stop-loss reason, never with the
take-profit reason, for both Long and Short positions. -/
theorem c2_stop_priority (cfg : Config) (t : Timestamp) (pos : Position) (bar : Bar)
    (h1 : bar.low ≤ pos.stop_loss) (h2 : pos.stop_loss ≤ bar.high)
    (h3 : bar.low ≤ pos.take_profit) (h4 : pos.take_profit ≤ bar.high) :
    bar_exit_decision cfg t pos bar = some (pos.stop_loss, ExitReason.SL) := by
  unfold bar_exit_decision check_exit_levels
  cases pos.side with
  | LONG => simp [h1]
  | SHORT => simp [h2]

/-- Witness for C2 at Scenario D: Long position with stop 1.0950 and target
1.1100 against a bar with low 1.0940 and high 1.1120. -/
theorem c2_stop_priority_witness :
    bar_exit_decision defaultConfig ⟨0, 510⟩
      ⟨"EURUSD", Side.LONG, 11/10, 1095/1000, 111/100, 1/10, ⟨0, 500⟩, none⟩
      ⟨⟨0, 510⟩, 11/10, 1112/1000, 1094/1000, 11/10⟩
      = some (1095/1000, ExitReason.SL) :=
  c2_stop_priority defaultConfig ⟨0, 510⟩ _ _
    (by norm_num) (by norm_num) (by norm_num) (by norm_num)

theorem update_trailing_stop_fields (cfg : Config) (pos : Position) (p : ℚ) :
    (update_trailing_stop cfg pos p).1.symbol = pos.symbol ∧
    (update_trailing_stop cfg pos p).1.side = pos.side ∧
    (update_trailing_stop cfg pos p).1.entry_price = pos.entry_price ∧
    (update_trailing_stop cfg pos p).1.take_profit = pos.take_profit ∧
    (update_trailing_stop cfg pos p).1.size_lots = pos.size_lots ∧
    (update_trailing_stop cfg pos p).1.entry_time = pos.entry_time := by
  cases pos with
  | mk sym side e s tp sz t id =>
    cases side <;> simp only [update_trailing_stop] <;> split_ifs <;> simp

theorem update_trailing_mono_step (cfg : Config) (pos : Position) (p : ℚ) :
    (update_trailing_stop cfg pos p).1 = pos ∨
      (pos.side = Side.LONG ∧ pos.stop_loss < (update_trailing_stop cfg pos p).1.stop_loss) ∨
      (pos.side = Side.SHORT ∧ (update_trailing_stop cfg pos p).1.stop_loss < pos.stop_loss) := by
  cases hs : pos.side <;> simp only [update_trailing_stop, hs] <;> split_ifs <;>
    simp_all

/-- Claim C6: a trailing-stop update either leaves the stop unchanged or
moves it strictly in the trader's favor (strictly up for Long, strictly
down for Short), so across any sequence of updates the stop is monotone in
the trade's favor. -/
theorem c6_trailing_monotone (cfg : Config) (pos : Position) (p : ℚ)
    (prices : List ℚ) :
    ((update_trailing_stop cfg pos p).1 = pos ∨
      (pos.side = Side.LONG ∧ pos.stop_loss < (update_trailing_stop cfg pos p).1.stop_loss) ∨
      (pos.side = Side.SHORT ∧ (update_trailing_stop cfg pos p).1.stop_loss < pos.stop_loss)) ∧
    (match pos.side with
     | Side.LONG => pos.stop_loss ≤ (apply_trailing_updates cfg pos prices).stop_loss
     | Side.SHORT => (apply_trailing_updates cfg pos prices).stop_loss ≤ pos.stop_loss) := by
  refine ⟨update_trailing_mono_step cfg pos p, ?_⟩
  induction prices generalizing pos with
  | nil => cases pos.side <;> simp [apply_trailing_updates]
  | cons q rest ih =>
    have hstep := update_trailing_mono_step cfg pos q
    have hside := (update_trailing_stop_fields cfg pos q).2.1
    have ihq := ih (update_trailing_stop cfg pos q).1
    cases hs : pos.side with
    | LONG =>
      simp only [apply_trailing_updates]
      rw [hs] at hside
      rw [hside] at ihq
      simp only at ihq ⊢
      rcases hstep with he | ⟨_, hlt⟩ | ⟨hshort, _⟩
      · rw [he] at ihq ⊢; exact ihq
      · exact le_trans (le_of_lt hlt) ihq
      · rw [hs] at hshort; exact absurd hshort (by simp)
    | SHORT =>
      simp only [apply_trailing_updates]
      rw [hs] at hside
      rw [hside] at ihq
      simp only at ihq ⊢
      rcases hstep with he | ⟨hlong, _⟩ | ⟨_, hlt⟩
      · rw [he] at ihq ⊢; exact ihq
      · rw [hs] at hlong; exact absurd hlong (by simp)
      · exact le_trans ihq (le_of_lt hlt)

/-- Claim C7: an input series that is empty after the start/end date
filters makes the run fail with the dedicated error before any simulation
state is mutated: the engine state (equity curve, risk manager, strategy)
is returned exactly as it was. -/
theorem c7_empty_rejected (cfg : Config) (st : EngineState) (bars : List Bar)
    (sd ed : Option Timestamp) (h : filter_dates bars sd ed = []) :
    run cfg st bars sd ed = (st, Except.error "No data available for backtest period") := by
  unfold run
  rw [h]

/-- Witness for C7: a one-bar series filtered away by a later start date. -/
theorem c7_empty_rejected_witness :
    run defaultConfig (EngineState.init defaultConfig "EURUSD" none)
      [⟨⟨0, 0⟩, 1, 1, 1, 1⟩] (some ⟨1, 0⟩) none
      = (EngineState.init defaultConfig "EURUSD" none,
         Except.error "No data available for backtest period") :=
  c7_empty_rejected defaultConfig _ _ _ _ (by with_unfolding_all rfl)

/-- Claim C10: when the exit evaluation fires a stop-loss (take-profit),
the exit price handed to close_position is exactly the stop (target) level
no matter how far the bar's extreme gapped beyond it, and the Trade's
P&L in pips and in account currency is computed from that exact level. -/
theorem c10_exit_at_levels (cfg : Config) (rm : RMState) (pos : Position)
    (bar : Bar) (t : Timestamp) (px : ℚ) (r : ExitReason)
    (h : bar_exit_decision cfg t pos bar = some (px, r)) :
    (r = ExitReason.SL → px = pos.stop_loss) ∧
    (r = ExitReason.TP → px = pos.take_profit) ∧
    (close_position cfg rm pos px t r).2.exit_price = px ∧
    (close_position cfg rm pos px t r).2.pnl_pips =
      (match pos.side with
       | Side.LONG => (px - pos.entry_price) * 10000
       | Side.SHORT => (pos.entry_price - px) * 10000) ∧
    (close_position cfg rm pos px t r).2.pnl_amount =
      (close_position cfg rm pos px t r).2.pnl_pips * (10 * pos.size_lots) := by
  cases pos with
  | mk sym side e s tp sz tt id =>
    cases side <;>
      refine ⟨?_, ?_, by simp [close_position], by simp [close_position],
        by simp [close_position]⟩ <;>
      · intro hr
        subst hr
        simp only [bar_exit_decision, check_exit_levels] at h
        split_ifs at h <;> simp_all

/-- Witness for C10: a Long stop-loss exit on a bar gapping 95 pips below
the stop; the trade still exits at the stop level. -/
theorem c10_exit_at_levels_witness :
    ((ExitReason.SL = ExitReason.SL → (1095:ℚ)/1000 = (⟨"EURUSD", Side.LONG, 11/10,
        1095/1000, 111/100, 1/10, ⟨0, 500⟩, none⟩ : Position).stop_loss) ∧
      (ExitReason.SL = ExitReason.TP → (1095:ℚ)/1000 = (⟨"EURUSD", Side.LONG, 11/10,
        1095/1000, 111/100, 1/10, ⟨0, 500⟩, none⟩ : Position).take_profit) ∧
      (close_position defaultConfig (RMState.init 10000) ⟨"EURUSD", Side.LONG, 11/10,
        1095/1000, 111/100, 1/10, ⟨0, 500⟩, none⟩ (1095/1000) ⟨0, 510⟩ ExitReason.SL).2.exit_price
        = 1095/1000 ∧
      (close_position defaultConfig (RMState.init 10000) ⟨"EURUSD", Side.LONG, 11/10,
        1095/1000, 111/100, 1/10, ⟨0, 500⟩, none⟩ (1095/1000) ⟨0, 510⟩ ExitReason.SL).2.pnl_pips
        = (match (⟨"EURUSD", Side.LONG, 11/10, 1095/1000, 111/100, 1/10, ⟨0, 500⟩, none⟩ : Position).side with
           | Side.LONG => ((1095:ℚ)/1000 - (11:ℚ)/10) * 10000
           | Side.SHORT => ((11:ℚ)/10 - (1095:ℚ)/1000) * 10000) ∧
      (close_position defaultConfig (RMState.init 10000) ⟨"EURUSD", Side.LONG, 11/10,
        1095/1000, 111/100, 1/10, ⟨0, 500⟩, none⟩ (1095/1000) ⟨0, 510⟩ ExitReason.SL).2.pnl_amount
        = (close_position defaultConfig (RMState.init 10000) ⟨"EURUSD", Side.LONG, 11/10,
        1095/1000, 111/100, 1/10, ⟨0, 500⟩, none⟩ (1095/1000) ⟨0, 510⟩ ExitReason.SL).2.pnl_pips
          * (10 * (1:ℚ)/10)) :=
  by
    have := c10_exit_at_levels defaultConfig (RMState.init 10000)
      ⟨"EURUSD", Side.LONG, 11/10, 1095/1000, 111/100, 1/10, ⟨0, 500⟩, none⟩
      ⟨⟨0, 510⟩, 11/10, 1101/1000, 1000/1000, 1001/1000⟩ ⟨0, 510⟩ (1095/1000) ExitReason.SL
      (by with_unfolding_all rfl)
    simpa using this

/-- Claim C4 (code bug): a run that completes with zero closed trades.  The
results dictionary does carry winRate = 0, profitFactor = 0,
maxDrawdown = 0, Sharpe = 0 and Sortino = 0, but the zero-trade branch of
get_statistics omits the "winners" key that _print_results then reads, so
the run raises a KeyError instead of finishing cleanly. -/
theorem c4_zero_trades_keyerror :
    (run defaultConfig (EngineState.init defaultConfig "EURUSD" none)
        [⟨⟨0, 0⟩, 1, 1, 1, 1⟩] none none).2 = Except.error "KeyError: winners" ∧
    dict_get (generate_results defaultConfig
        (run defaultConfig (EngineState.init defaultConfig "EURUSD" none)
          [⟨⟨0, 0⟩, 1, 1, 1, 1⟩] none none).1 [⟨⟨0, 0⟩, 1, 1, 1, 1⟩]) "winners" = none ∧
    dict_get (generate_results defaultConfig
        (run defaultConfig (EngineState.init defaultConfig "EURUSD" none)
          [⟨⟨0, 0⟩, 1, 1, 1, 1⟩] none none).1 [⟨⟨0, 0⟩, 1, 1, 1, 1⟩]) "win_rate"
      = some (RVal.num 0) ∧
    dict_get (generate_results defaultConfig
        (run defaultConfig (EngineState.init defaultConfig "EURUSD" none)
          [⟨⟨0, 0⟩, 1, 1, 1, 1⟩] none none).1 [⟨⟨0, 0⟩, 1, 1, 1, 1⟩]) "profit_factor"
      = some (RVal.num 0) ∧
    dict_get (generate_results defaultConfig
        (run defaultConfig (EngineState.init defaultConfig "EURUSD" none)
          [⟨⟨0, 0⟩, 1, 1, 1, 1⟩] none none).1 [⟨⟨0, 0⟩, 1, 1, 1, 1⟩]) "max_drawdown"
      = some (RVal.num 0) ∧
    dict_get (generate_results defaultConfig
        (run defaultConfig (EngineState.init defaultConfig "EURUSD" none)
          [⟨⟨0, 0⟩, 1, 1, 1, 1⟩] none none).1 [⟨⟨0, 0⟩, 1, 1, 1, 1⟩]) "sharpe_ratio"
      = some (RVal.num 0) ∧
    dict_get (generate_results defaultConfig
        (run defaultConfig (EngineState.init defaultConfig "EURUSD" none)
          [⟨⟨0, 0⟩, 1, 1, 1, 1⟩] none none).1 [⟨⟨0, 0⟩, 1, 1, 1, 1⟩]) "sortino_ratio"
      = some (RVal.num 0) := by
  refine ⟨?_, ?_, ?_, ?_, ?_, ?_, ?_⟩ <;> with_unfolding_all rfl

theorem signal_phase_curve_eq (cfg : Config) (df : List Bar) (st : EngineState)
    (t : Timestamp) :
    (process_signal_phase cfg df st t).equity_curve = st.equity_curve := by
  unfold process_signal_phase
  dsimp only
  split
  · rfl
  · split <;> rfl

theorem signal_phase_dates_eq (cfg : Config) (df : List Bar) (st : EngineState)
    (t : Timestamp) :
    (process_signal_phase cfg df st t).dates = st.dates := by
  unfold process_signal_phase
  dsimp only
  split
  · rfl
  · split <;> rfl

theorem process_bar_curve_eq (cfg : Config) (df : List Bar) (st : EngineState)
    (b : Bar) :
    (process_bar cfg df st b).equity_curve = st.equity_curve ++ [st.rm.current_equity] := by
  simp [process_bar, signal_phase_curve_eq]

theorem process_bar_dates_eq (cfg : Config) (df : List Bar) (st : EngineState)
    (b : Bar) :
    (process_bar cfg df st b).dates = st.dates ++ [b.timestamp] := by
  simp [process_bar, signal_phase_dates_eq]

theorem process_bars_curve_eq (cfg : Config) (df : List Bar) (bars : List Bar) :
    ∀ st : EngineState,
      (process_bars cfg df st bars).equity_curve
        = st.equity_curve ++ equity_trace cfg df st bars := by
  induction bars with
  | nil => intro st; simp [process_bars, equity_trace]
  | cons b bs ih =>
    intro st
    simp [process_bars, equity_trace, ih, process_bar_curve_eq]

theorem process_bars_dates_eq (cfg : Config) (df : List Bar) (bars : List Bar) :
    ∀ st : EngineState,
      (process_bars cfg df st bars).dates = st.dates ++ bars.map Bar.timestamp := by
  induction bars with
  | nil => intro st; simp [process_bars]
  | cons b bs ih =>
    intro st
    simp [process_bars, ih, process_bar_dates_eq]

theorem equity_trace_length (cfg : Config) (df : List Bar) (bars : List Bar) :
    ∀ st : EngineState, (equity_trace cfg df st bars).length = bars.length := by
  induction bars with
  | nil => intro st; simp [equity_trace]
  | cons b bs ih => intro st; simp [equity_trace, ih]

/-- Claim C8: each processed bar appends exactly one equity point, which
records the equity as it stood at the start of that bar (before any exit
triggered within the bar is applied), and the run's curve lists those
points in bar order with the bars' timestamps. -/
theorem c8_equity_point_pre_exit (cfg : Config) (df : List Bar)
    (st : EngineState) (bars : List Bar) (b : Bar) :
    (process_bar cfg df st b).equity_curve = st.equity_curve ++ [st.rm.current_equity] ∧
    (process_bar cfg df st b).dates = st.dates ++ [b.timestamp] ∧
    (process_bars cfg df st bars).equity_curve = st.equity_curve ++ equity_trace cfg df st bars ∧
    (process_bars cfg df st bars).dates = st.dates ++ bars.map Bar.timestamp ∧
    (equity_trace cfg df st bars).length = bars.length :=
  ⟨process_bar_curve_eq cfg df st b, process_bar_dates_eq cfg df st b,
   process_bars_curve_eq cfg df bars st, process_bars_dates_eq cfg df bars st,
   equity_trace_length cfg df bars st⟩

theorem generate_signal_none_same_day (cfg : Config) (st : StratState)
    (df : List Bar) (t : Timestamp) (d : ℤ)
    (hl : st.last_signal_date = some d) (ht : t.day = d) :
    generate_signal cfg st df t = (st, none) := by
  unfold generate_signal
  rw [hl, ht]
  simp

theorem generate_signal_some_sets_date (cfg : Config) (st : StratState)
    (df : List Bar) (t : Timestamp) (st' : StratState) (sig : TradeSignal)
    (h : generate_signal cfg st df t = (st', some sig)) :
    st'.last_signal_date = some t.day := by
  simp only [generate_signal] at h
  repeat' split at h
  all_goals try simp at h
  all_goals rw [← h.1]

theorem run_signal_calls_same_day (cfg : Config) (d : ℤ) :
    ∀ (calls : List (List Bar × Timestamp)) (st : StratState),
      st.last_signal_date = some d → (∀ c ∈ calls, (c.2).day = d) →
      (run_signal_calls cfg st calls).1 = st ∧
      ((run_signal_calls cfg st calls).2.all fun o => o.isNone) = true := by
  intro calls
  induction calls with
  | nil => intro st _ _; simp [run_signal_calls]
  | cons c rest ih =>
    intro st h1 h2
    obtain ⟨df, t⟩ := c
    have ht : t.day = d := h2 (df, t) (by simp)
    have hg : generate_signal cfg st df t = (st, none) :=
      generate_signal_none_same_day cfg st df t d h1 ht
    have ihr := ih st h1 fun c hc => h2 c (by simp [hc])
    simp only [run_signal_calls, hg, List.all_cons, Option.isNone_none, Bool.true_and]
    exact ihr

/-- Claim C3: once generate_signal has emitted a signal for a timestamp of
a calendar day, every subsequent call on that same calendar day returns
None, however many further bars of that day are fed in. -/
theorem c3_one_signal_per_day (cfg : Config) (st : StratState) (df : List Bar)
    (t : Timestamp) (st' : StratState) (sig : TradeSignal)
    (calls : List (List Bar × Timestamp))
    (h : generate_signal cfg st df t = (st', some sig))
    (hcalls : ∀ c ∈ calls, (c.2).day = t.day) :
    ((run_signal_calls cfg st' calls).2.all fun o => o.isNone) = true :=
  (run_signal_calls_same_day cfg t.day calls st'
    (generate_signal_some_sets_date cfg st df t st' sig h) hcalls).2

set_option maxRecDepth 8000 in
/-- Witness for C3: a valid 50-pip Asian range on day 0 and a breakout bar
at the London open emit a Long signal; a further breakout bar of the same
day then yields None. -/
theorem c3_one_signal_per_day_witness :
    ((run_signal_calls defaultConfig
        ⟨some ⟨11050/10000, 11000/10000, ⟨0, 420⟩⟩, some 0⟩
        [([⟨⟨0, 100⟩, 11020/10000, 11050/10000, 11000/10000, 11030/10000⟩,
           ⟨⟨0, 480⟩, 11050/10000, 11055/10000, 11049/10000, 11053/10000⟩],
          ⟨0, 490⟩)]).2.all fun o => o.isNone) = true :=
  c3_one_signal_per_day defaultConfig StratState.init
    [⟨⟨0, 100⟩, 11020/10000, 11050/10000, 11000/10000, 11030/10000⟩,
     ⟨⟨0, 480⟩, 11050/10000, 11055/10000, 11049/10000, 11053/10000⟩]
    ⟨0, 480⟩
    ⟨some ⟨11050/10000, 11000/10000, ⟨0, 420⟩⟩, some 0⟩
    ⟨SignalType.LONG, ⟨0, 480⟩, 11053/10000, 11000/10000, 11159/10000,
      ⟨11050/10000, 11000/10000, ⟨0, 420⟩⟩⟩
    [([⟨⟨0, 100⟩, 11020/10000, 11050/10000, 11000/10000, 11030/10000⟩,
       ⟨⟨0, 480⟩, 11050/10000, 11055/10000, 11049/10000, 11053/10000⟩],
      ⟨0, 490⟩)]
    (by with_unfolding_all rfl)
    (by intro c hc; simp at hc; subst hc; rfl)

theorem trail_inv_refl (cfg : Config) (pos0 : Position) : trail_inv cfg pos0 pos0 :=
  ⟨rfl, rfl, fun _ => Or.inl rfl, fun _ => Or.inl rfl⟩

theorem trail_inv_step (cfg : Config) (pos0 pos : Position) (p : ℚ)
    (h : trail_inv cfg pos0 pos) :
    trail_inv cfg pos0 (update_trailing_stop cfg pos p).1 := by
  obtain ⟨hside, hentry, hlong, hshort⟩ := h
  cases pos with
  | mk sym side e s tp sz t id =>
    simp only at hside hentry
    cases side with
    | LONG =>
      have hs0 : pos0.side = Side.LONG := hside.symm
      have hl := hlong hs0
      simp only [update_trailing_stop, Position.calculate_pnl, Position.risk_pips]
      split_ifs with h1 h2 h3
      · exact ⟨hside, hentry, hlong, hshort⟩
      · exact ⟨hside, hentry, hlong, hshort⟩
      · refine ⟨hside, hentry, fun _ => Or.inr ?_,
          fun hctr => absurd (hs0.symm.trans hctr) (by simp)⟩
        simp only
        rcases hl with hl0 | hl1
        · simp only at hl0
          simp only [Position.risk_pips]
          rw [← hentry, ← hl0]
          have h2' := not_lt.mp h2
          linarith
        · simp only at hl1
          rw [← hentry] at hl1 ⊢
          linarith
      · exact ⟨hside, hentry, hlong, hshort⟩
    | SHORT =>
      have hs0 : pos0.side = Side.SHORT := hside.symm
      have hl := hshort hs0
      simp only [update_trailing_stop, Position.calculate_pnl, Position.risk_pips]
      split_ifs with h1 h2 h3
      · exact ⟨hside, hentry, hlong, hshort⟩
      · exact ⟨hside, hentry, hlong, hshort⟩
      · refine ⟨hside, hentry,
          fun hctr => absurd (hs0.symm.trans hctr) (by simp), fun _ => Or.inr ?_⟩
        simp only
        rcases hl with hl0 | hl1
        · simp only at hl0
          simp only [Position.risk_pips]
          rw [← hentry, ← hl0]
          have h2' := not_lt.mp h2
          linarith
        · simp only at hl1
          rw [← hentry] at hl1 ⊢
          linarith
      · exact ⟨hside, hentry, hlong, hshort⟩

theorem trail_inv_updates (cfg : Config) (pos0 : Position) :
    ∀ (prices : List ℚ) (pos : Position), trail_inv cfg pos0 pos →
      trail_inv cfg pos0 (apply_trailing_updates cfg pos prices)
  | [], pos, h => by simpa [apply_trailing_updates] using h
  | q :: rest, pos, h => by
    simp only [apply_trailing_updates]
    exact trail_inv_updates cfg pos0 rest _ (trail_inv_step cfg pos0 pos q h)

theorem trail_no_move_below (cfg : Config) (pos0 pos : Position) (p : ℚ)
    (hinv : trail_inv cfg pos0 pos)
    (h : pos0.calculate_pnl p < pos0.risk_pips * cfg.TRAILING_STOP_ACTIVATION_RR) :
    update_trailing_stop cfg pos p = (pos, false) := by
  obtain ⟨hside, hentry, hlong, hshort⟩ := hinv
  cases pos with
  | mk sym side e s tp sz t id =>
    simp only at hside hentry
    cases side with
    | LONG =>
      have hs0 : pos0.side = Side.LONG := hside.symm
      have hl := hlong hs0
      simp only [Position.calculate_pnl, Position.risk_pips, hs0] at h
      rw [← hentry] at h
      simp only [update_trailing_stop, Position.calculate_pnl, Position.risk_pips]
      split_ifs with h1 h2 h3
      · rfl
      · rfl
      · exfalso
        rcases hl with hl0 | hl1
        · simp only at hl0
          rw [← hl0] at h
          exact h2 h
        · simp only at hl1
          simp only [Position.risk_pips] at hl1
          rw [← hentry] at hl1
          linarith
      · rfl
    | SHORT =>
      have hs0 : pos0.side = Side.SHORT := hside.symm
      have hl := hshort hs0
      simp only [Position.calculate_pnl, Position.risk_pips, hs0] at h
      rw [← hentry] at h
      simp only [update_trailing_stop, Position.calculate_pnl, Position.risk_pips]
      split_ifs with h1 h2 h3
      · rfl
      · rfl
      · exfalso
        rcases hl with hl0 | hl1
        · simp only at hl0
          rw [← hl0] at h
          exact h2 h
        · simp only at hl1
          simp only [Position.risk_pips] at hl1
          rw [← hentry] at hl1
          linarith
      · rfl

/-- Claim C5: over any trailed lifecycle of a position, a call to
update_trailing_stop whose unrealized P&L in pips lies strictly below the
activation threshold (the position's initial risk in pips, entry to
original stop, times the configured activation ratio) leaves the stop-loss
unchanged and returns false; the stop can move only at or above that
threshold. -/
theorem c5_trailing_activation (cfg : Config) (pos0 : Position)
    (prices : List ℚ) (p : ℚ)
    (h : pos0.calculate_pnl p < pos0.risk_pips * cfg.TRAILING_STOP_ACTIVATION_RR) :
    update_trailing_stop cfg (apply_trailing_updates cfg pos0 prices) p
      = (apply_trailing_updates cfg pos0 prices, false) :=
  trail_no_move_below cfg pos0 _ p
    (trail_inv_updates cfg pos0 prices pos0 (trail_inv_refl cfg pos0)) h

/-- Witness for C5: a Long position entered at 1.1000 with original stop
1.0950 (50 pips risk) is trailed up by a 1.2000 print; at price 1.10010
its P&L of 1 pip is below the 50-pip activation threshold computed from
the original stop, and the call leaves the trailed stop unchanged. -/
theorem c5_trailing_activation_witness :
    update_trailing_stop defaultConfig
      (apply_trailing_updates defaultConfig
        ⟨"EURUSD", Side.LONG, 11/10, 1095/1000, 111/100, 1/10, ⟨0, 500⟩, none⟩
        [12/10]) (110010/100000)
      = (apply_trailing_updates defaultConfig
          ⟨"EURUSD", Side.LONG, 11/10, 1095/1000, 111/100, 1/10, ⟨0, 500⟩, none⟩
          [12/10], false) :=
  c5_trailing_activation defaultConfig
    ⟨"EURUSD", Side.LONG, 11/10, 1095/1000, 111/100, 1/10, ⟨0, 500⟩, none⟩
    [12/10] (110010/100000)
    (by
      norm_num [Position.calculate_pnl, Position.risk_pips, defaultConfig]
      rw [show |(1:ℚ)/200| = 1/200 from abs_of_pos (by norm_num)]
      norm_num)

theorem net_sum_append (l : List Trade) (t : Trade) :
    net_sum (l ++ [t]) = net_sum l + t.net_pnl := by
  simp [net_sum]

theorem close_position_effect (cfg : Config) (rm : RMState) (pos : Position)
    (px : ℚ) (t : Timestamp) (r : ExitReason) :
    (close_position cfg rm pos px t r).1.current_equity
      = rm.current_equity + (close_position cfg rm pos px t r).2.net_pnl ∧
    (close_position cfg rm pos px t r).1.closed_trades
      = rm.closed_trades ++ [(close_position cfg rm pos px t r).2] ∧
    (close_position cfg rm pos px t r).1.initial_capital = rm.initial_capital := by
  simp [close_position]

theorem open_position_effect (cfg : Config) (rm : RMState) (sym : String)
    (side : Side) (e s tp : ℚ) (t : Timestamp) (sz : Option ℚ) :
    (open_position cfg rm sym side e s tp t sz).1.current_equity = rm.current_equity ∧
    (open_position cfg rm sym side e s tp t sz).1.closed_trades = rm.closed_trades ∧
    (open_position cfg rm sym side e s tp t sz).1.initial_capital = rm.initial_capital := by
  cases sz <;> simp only [open_position] <;> split_ifs <;> simp

theorem process_position_conserved (cfg : Config) (rm : RMState) (t : Timestamp)
    (bar : Bar) (pos : Position) (h : equity_conserved rm) :
    equity_conserved (process_position cfg rm t bar pos) := by
  unfold process_position
  cases bar_exit_decision cfg t pos bar with
  | none => exact h
  | some pr =>
    obtain ⟨h1, h2, h3⟩ := close_position_effect cfg rm pos pr.1 t pr.2
    unfold equity_conserved at h ⊢
    rw [h1, h2, h3, net_sum_append, h]
    ring

theorem process_positions_conserved (cfg : Config) (t : Timestamp) (bar : Bar) :
    ∀ (snapshot : List Position) (rm : RMState), equity_conserved rm →
      equity_conserved (process_positions cfg t bar rm snapshot)
  | [], rm, h => h
  | p :: ps, rm, h =>
    process_positions_conserved cfg t bar ps _
      (process_position_conserved cfg rm t bar p h)

theorem process_bar_conserved (cfg : Config) (df : List Bar) (st : EngineState)
    (b : Bar) (h : equity_conserved st.rm) :
    equity_conserved (process_bar cfg df st b).rm := by
  unfold process_bar process_signal_phase
  dsimp only
  split
  · exact process_positions_conserved cfg b.timestamp b _ _ h
  · split
    · exact process_positions_conserved cfg b.timestamp b _ _ h
    · have hx := process_positions_conserved cfg b.timestamp b
        ({ st with
            equity_curve := st.equity_curve ++ [st.rm.current_equity]
            dates := st.dates ++ [b.timestamp] }).rm.open_positions st.rm h
      obtain ⟨h1, h2, h3⟩ := open_position_effect cfg _ st.symbol _ _ _ _ b.timestamp none
      unfold equity_conserved at hx ⊢
      rw [h1, h2, h3]
      exact hx

theorem process_bars_conserved (cfg : Config) (df : List Bar) :
    ∀ (bars : List Bar) (st : EngineState), equity_conserved st.rm →
      equity_conserved (process_bars cfg df st bars).rm
  | [], _, h => h
  | b :: bs, st, h =>
    process_bars_conserved cfg df bs _ (process_bar_conserved cfg df st b h)

theorem end_close_conserved (cfg : Config) (px : ℚ) (t : Timestamp) :
    ∀ (ps : List Position) (rm : RMState), equity_conserved rm →
      equity_conserved
        (ps.foldl (fun acc p => (close_position cfg acc p px t ExitReason.END).1) rm)
  | [], _, h => h
  | p :: ps, rm, h => by
    simp only [List.foldl_cons]
    refine end_close_conserved cfg px t ps _ ?_
    obtain ⟨h1, h2, h3⟩ := close_position_effect cfg rm p px t ExitReason.END
    unfold equity_conserved at h ⊢
    rw [h1, h2, h3, net_sum_append, h]
    ring

theorem run_conserved (cfg : Config) (st : EngineState) (bars : List Bar)
    (sd ed : Option Timestamp) (h : equity_conserved st.rm) :
    equity_conserved (run cfg st bars sd ed).1.rm := by
  unfold run
  cases filter_dates bars sd ed with
  | nil => exact h
  | cons b0 rest =>
    dsimp only
    split
    · exact end_close_conserved cfg _ _ _ _
        (process_bars_conserved cfg _ _ st h)
    · exact end_close_conserved cfg _ _ _ _
        (process_bars_conserved cfg _ _ st h)

/-- Claim C1: along any run of the simulation, the RiskManager's equity is
always exactly the initial capital plus the sum of the net P&L (pnlAmount
minus commission) of the closed trades so far; open_position never changes
equity and close_position changes it by exactly the new trade's net P&L. -/
theorem c1_equity_conservation (cfg : Config) (df : List Bar) (st : EngineState)
    (bars : List Bar) (sd ed : Option Timestamp) (h : equity_conserved st.rm) :
    equity_conserved (process_bars cfg df st bars).rm ∧
    equity_conserved (run cfg st bars sd ed).1.rm ∧
    (∀ (sym : String) (side : Side) (e s tp : ℚ) (t : Timestamp) (sz : Option ℚ),
      (open_position cfg st.rm sym side e s tp t sz).1.current_equity
        = st.rm.current_equity) ∧
    (∀ (pos : Position) (px : ℚ) (t : Timestamp) (r : ExitReason),
      (close_position cfg st.rm pos px t r).1.current_equity
        = st.rm.current_equity + (close_position cfg st.rm pos px t r).2.net_pnl) :=
  ⟨process_bars_conserved cfg df bars st h,
   run_conserved cfg st bars sd ed h,
   fun sym side e s tp t sz => (open_position_effect cfg st.rm sym side e s tp t sz).1,
   fun pos px t r => (close_position_effect cfg st.rm pos px t r).1⟩

/-- Witness for C1 on a concrete one-bar run from the initial state. -/
theorem c1_equity_conservation_witness :
    equity_conserved (process_bars defaultConfig [⟨⟨0, 0⟩, 1, 1, 1, 1⟩]
        (EngineState.init defaultConfig "EURUSD" none) [⟨⟨0, 0⟩, 1, 1, 1, 1⟩]).rm ∧
    equity_conserved (run defaultConfig (EngineState.init defaultConfig "EURUSD" none)
        [⟨⟨0, 0⟩, 1, 1, 1, 1⟩] none none).1.rm ∧
    (∀ (sym : String) (side : Side) (e s tp : ℚ) (t : Timestamp) (sz : Option ℚ),
      (open_position defaultConfig (EngineState.init defaultConfig "EURUSD" none).rm
          sym side e s tp t sz).1.current_equity
        = (EngineState.init defaultConfig "EURUSD" none).rm.current_equity) ∧
    (∀ (pos : Position) (px : ℚ) (t : Timestamp) (r : ExitReason),
      (close_position defaultConfig (EngineState.init defaultConfig "EURUSD" none).rm
          pos px t r).1.current_equity
        = (EngineState.init defaultConfig "EURUSD" none).rm.current_equity
          + (close_position defaultConfig (EngineState.init defaultConfig "EURUSD" none).rm
              pos px t r).2.net_pnl) :=
  c1_equity_conservation defaultConfig [⟨⟨0, 0⟩, 1, 1, 1, 1⟩]
    (EngineState.init defaultConfig "EURUSD" none) [⟨⟨0, 0⟩, 1, 1, 1, 1⟩] none none
    (by simp [equity_conserved, EngineState.init, RMState.init, net_sum])

theorem mem_replace_cases {α : Type} [BEq α] :
    ∀ (l : List α) (a b c : α), c ∈ l.replace a b → c = b ∨ c ∈ l
  | [], _, _, _, h => by simp [List.replace] at h
  | x :: xs, a, b, c, h => by
    rw [List.replace_cons] at h
    by_cases hxa : (a == x) = true
    · rw [hxa] at h
      rcases List.mem_cons.mp h with h | h
      · exact Or.inl h
      · exact Or.inr (List.mem_cons_of_mem x h)
    · simp only [Bool.not_eq_true] at hxa
      rw [hxa] at h
      rcases List.mem_cons.mp h with h | h
      · exact Or.inr (h ▸ List.mem_cons_self x xs)
      · rcases mem_replace_cases xs a b c h with h' | h'
        · exact Or.inl h'
        · exact Or.inr (List.mem_cons_of_mem x h')

theorem process_position_open_subset (cfg : Config) (rm : RMState) (t : Timestamp)
    (bar : Bar) (pos : Position) (sym : String) (hsym : pos.symbol = sym)
    (hall : ∀ q ∈ rm.open_positions, q.symbol = sym) :
    (∀ q ∈ (process_position cfg rm t bar pos).open_positions, q.symbol = sym) ∧
    (process_position cfg rm t bar pos).open_positions.length
      ≤ rm.open_positions.length := by
  unfold process_position
  cases bar_exit_decision cfg t pos bar with
  | some pr =>
    refine ⟨?_, ?_⟩
    · intro q hq
      exact hall q (List.mem_of_mem_erase (by simpa [close_position] using hq))
    · simpa [close_position] using
        (List.erase_sublist pos rm.open_positions).length_le
  | none =>
    refine ⟨?_, ?_⟩
    · intro q hq
      simp only at hq
      rcases mem_replace_cases rm.open_positions pos
        (update_trailing_stop cfg pos bar.close).1 q hq with h' | h'
      · rw [h', (update_trailing_stop_fields cfg pos bar.close).1]
        exact hsym
      · exact hall q h'
    · simp [List.length_replace]

theorem process_positions_open_inv (cfg : Config) (t : Timestamp) (bar : Bar)
    (sym : String) :
    ∀ (snapshot : List Position) (rm : RMState),
      (∀ p ∈ snapshot, p.symbol = sym) →
      (∀ q ∈ rm.open_positions, q.symbol = sym) →
      rm.open_positions.length ≤ 1 →
      (∀ q ∈ (process_positions cfg t bar rm snapshot).open_positions, q.symbol = sym) ∧
      (process_positions cfg t bar rm snapshot).open_positions.length ≤ 1
  | [], rm, _, hall, hlen => ⟨hall, hlen⟩
  | p :: ps, rm, hsnap, hall, hlen => by
    have hp : p.symbol = sym := hsnap p (List.mem_cons_self p ps)
    obtain ⟨h1, h2⟩ := process_position_open_subset cfg rm t bar p sym hp hall
    exact process_positions_open_inv cfg t bar sym ps _
      (fun q hq => hsnap q (List.mem_cons_of_mem p hq)) h1 (h2.trans hlen)

theorem process_exits_inv (cfg : Config) (rm : RMState) (t : Timestamp) (bar : Bar)
    (sym : String) (h : pos_inv sym rm) : pos_inv sym (process_exits cfg rm t bar) := by
  obtain ⟨hlen, hall⟩ := h
  obtain ⟨h1, h2⟩ := process_positions_open_inv cfg t bar sym rm.open_positions rm
    hall hall hlen
  exact ⟨h2, h1⟩

theorem open_position_open_shape (cfg : Config) (rm : RMState) (sym : String)
    (side : Side) (e s tp : ℚ) (t : Timestamp) (sz : Option ℚ) :
    (open_position cfg rm sym side e s tp t sz).1.open_positions = rm.open_positions ∨
    ∃ pos : Position, pos.symbol = sym ∧
      (open_position cfg rm sym side e s tp t sz).1.open_positions
        = rm.open_positions ++ [pos] := by
  unfold open_position
  dsimp only
  split
  · exact Or.inl rfl
  · split
    · exact Or.inr ⟨_, rfl, rfl⟩
    · exact Or.inl rfl

theorem signal_phase_symbol_eq (cfg : Config) (df : List Bar) (st : EngineState)
    (t : Timestamp) : (process_signal_phase cfg df st t).symbol = st.symbol := by
  unfold process_signal_phase
  dsimp only
  split
  · rfl
  · split <;> rfl

theorem signal_phase_inv (cfg : Config) (df : List Bar) (st : EngineState)
    (t : Timestamp) (h : pos_inv st.symbol st.rm) :
    pos_inv st.symbol (process_signal_phase cfg df st t).rm := by
  obtain ⟨hlen, hall⟩ := h
  have hempty : st.symbol ∉ st.rm.open_positions.map Position.symbol →
      st.rm.open_positions = [] := by
    intro hmem
    cases hx : st.rm.open_positions with
    | nil => rfl
    | cons q qs =>
      exfalso
      apply hmem
      have hq : q.symbol = st.symbol := hall q (by rw [hx]; exact List.mem_cons_self q qs)
      rw [← hq]
      exact List.mem_map_of_mem Position.symbol (by rw [hx]; exact List.mem_cons_self q qs)
  unfold process_signal_phase
  dsimp only
  split
  · exact ⟨hlen, hall⟩
  · next hmem =>
    split
    all_goals
      first
        | exact ⟨hlen, hall⟩
        | (rcases open_position_open_shape cfg st.rm st.symbol _ _ _ _ t none with he | ⟨pos, hps, he⟩
           · exact ⟨by rw [he]; exact hlen, fun q hq => hall q (by rwa [he] at hq)⟩
           · refine ⟨?_, ?_⟩
             · rw [he, hempty hmem]
               simp
             · intro q hq
               rw [he, hempty hmem] at hq
               simp at hq
               rw [hq]
               exact hps)

theorem process_bar_symbol_eq (cfg : Config) (df : List Bar) (st : EngineState)
    (b : Bar) : (process_bar cfg df st b).symbol = st.symbol := by
  simp [process_bar, signal_phase_symbol_eq]

theorem process_bar_inv (cfg : Config) (df : List Bar) (st : EngineState)
    (b : Bar) (h : pos_inv st.symbol st.rm) :
    pos_inv st.symbol (process_bar cfg df st b).rm := by
  unfold process_bar
  dsimp only
  have h2 := process_exits_inv cfg st.rm b.timestamp b st.symbol h
  exact signal_phase_inv cfg df _ b.timestamp h2

theorem process_bars_inv (cfg : Config) (df : List Bar) :
    ∀ (bars : List Bar) (st : EngineState), pos_inv st.symbol st.rm →
      pos_inv st.symbol (process_bars cfg df st bars).rm
  | [], _, h => h
  | b :: bs, st, h => by
    have hstep := process_bar_inv cfg df st b h
    have hsym := process_bar_symbol_eq cfg df st b
    have := process_bars_inv cfg df bs (process_bar cfg df st b) (by rw [hsym]; exact hstep)
    rw [hsym] at this
    exact this

/-- Claim C9: in every state the bar loop reaches from a state with at most
one tracked-symbol position open, at most one position for the tracked
symbol is open, and a new signal is solicited only when no position for
that symbol is in the open set (the signal phase is the identity
otherwise). -/
theorem c9_single_position (cfg : Config) (df : List Bar) (st : EngineState)
    (bars : List Bar) (h : pos_inv st.symbol st.rm) :
    pos_inv st.symbol (process_bars cfg df st bars).rm ∧
    (∀ (st' : EngineState) (t : Timestamp),
      st'.symbol ∈ st'.rm.open_positions.map Position.symbol →
      process_signal_phase cfg df st' t = st') := by
  refine ⟨process_bars_inv cfg df bars st h, ?_⟩
  intro st' t hmem
  unfold process_signal_phase
  dsimp only
  rw [if_pos hmem]

/-- Witness for C9 from the initial engine state over a one-bar run. -/
theorem c9_single_position_witness :
    pos_inv (EngineState.init defaultConfig "EURUSD" none).symbol
      (process_bars defaultConfig [⟨⟨0, 0⟩, 1, 1, 1, 1⟩]
        (EngineState.init defaultConfig "EURUSD" none) [⟨⟨0, 0⟩, 1, 1, 1, 1⟩]).rm ∧
    (∀ (st' : EngineState) (t : Timestamp),
      st'.symbol ∈ st'.rm.open_positions.map Position.symbol →
      process_signal_phase defaultConfig [⟨⟨0, 0⟩, 1, 1, 1, 1⟩] st' t = st') :=
  c9_single_position defaultConfig [⟨⟨0, 0⟩, 1, 1, 1, 1⟩]
    (EngineState.init defaultConfig "EURUSD" none) [⟨⟨0, 0⟩, 1, 1, 1, 1⟩]
    (by constructor <;> simp [EngineState.init, RMState.init])

end LB
